import Mathlib

/-!
Shallow embedding of tools/dump_offsets.py.

Python strings are modelled as lists of characters (PyStr).  The two
subprocess invocations (nm, and the optional lldb --version probe) are
modelled by a World record carrying their captured results; file-system
existence of the sibling lldb binary is a Boolean field.  The Python dict
built by the parsing loop is an insertion-ordered association list with
overwrite-on-insert, matching dict assignment semantics.  int(addr, 16)
is modelled by pyIntHex (sign, optional 0x/0X base marker, hex digits
with single underscores allowed between digits, as in Python 3); hex(n)
is modelled by pyHex.  sys.exit and an uncaught ValueError from int()
are the two abnormal outcomes of dump_offsets.
-/

abbrev PyStr := List Char

/-- Digit string of hex() on a Nat, most significant first; the fuel argument
makes the recursion structural, any fuel at least n suffices. -/
def natHexDigitsAux : Nat → Nat → PyStr
  | 0, _ => []
  | f + 1, n =>
    if n < 16 then [Nat.digitChar n]
    else natHexDigitsAux f (n / 16) ++ [Nat.digitChar (n % 16)]

/-- One hex digit run of the output of hex(): lowercase, no leading zeros. -/
def natHexDigits (n : Nat) : PyStr := natHexDigitsAux (n + 1) n

/-- Model of hex(z) for a Python int z: 0x-prefixed lowercase digits, with a
leading minus sign for negative values. -/
def pyHex (z : Int) : PyStr :=
  if z < 0 then '-' :: '0' :: 'x' :: natHexDigits z.natAbs
  else '0' :: 'x' :: natHexDigits z.toNat

def isHexDigit (c : Char) : Bool :=
  ('0' ≤ c && c ≤ '9') || ('a' ≤ c && c ≤ 'f') || ('A' ≤ c && c ≤ 'F')

def hexVal (c : Char) : Nat :=
  if '0' ≤ c && c ≤ '9' then c.toNat - '0'.toNat
  else if 'a' ≤ c && c ≤ 'f' then c.toNat - 'a'.toNat + 10
  else if 'A' ≤ c && c ≤ 'F' then c.toNat - 'A'.toNat + 10
  else 0

/-- Digits after the first: a single underscore may separate two digits. -/
def hexTail : PyStr → Bool
  | [] => true
  | c :: rest =>
    if c = '_' then
      match rest with
      | c2 :: rest2 => isHexDigit c2 && hexTail rest2
      | [] => false
    else isHexDigit c && hexTail rest

/-- A nonempty digit string: first character a hex digit, rest per hexTail. -/
def hexCore : PyStr → Bool
  | [] => false
  | c :: rest => isHexDigit c && hexTail rest

def hexStrVal (s : PyStr) : Nat :=
  (s.filter (fun c => c != '_')).foldl (fun a c => 16 * a + hexVal c) 0

def parseHexNat (s : PyStr) : Option Nat :=
  if hexCore s then some (hexStrVal s) else none

/-- After a 0x/0X base marker Python permits one underscore before the digits. -/
def hexAfterBase : PyStr → Option Nat
  | '_' :: rest => parseHexNat rest
  | s => parseHexNat s

def parsePrefixedHex : PyStr → Option Nat
  | '0' :: 'x' :: rest => hexAfterBase rest
  | '0' :: 'X' :: rest => hexAfterBase rest
  | s => parseHexNat s

/-- Model of int(s, 16) on whitespace-free tokens, as an Option: none is the
ValueError case. -/
def pyIntHex : PyStr → Option Int
  | '+' :: rest => (parsePrefixedHex rest).map (fun (n : Nat) => (n : Int))
  | '-' :: rest => (parsePrefixedHex rest).map (fun (n : Nat) => -(n : Int))
  | s => (parsePrefixedHex s).map (fun (n : Nat) => (n : Int))

/-- str.split() with no argument: whitespace runs separate tokens, no empties. -/
def splitAux : PyStr → PyStr → List PyStr
  | [], acc => if acc = [] then [] else [acc.reverse]
  | c :: rest, acc =>
    if c.isWhitespace then
      if acc = [] then splitAux rest [] else acc.reverse :: splitAux rest []
    else splitAux rest (c :: acc)

def pySplit (s : PyStr) : List PyStr := splitAux s []

/-- str.splitlines() restricted to the ASCII terminators nm emits. -/
def splitlinesAux : PyStr → PyStr → List PyStr
  | [], acc => if acc = [] then [] else [acc.reverse]
  | '\r' :: '\n' :: rest, acc => acc.reverse :: splitlinesAux rest []
  | '\n' :: rest, acc => acc.reverse :: splitlinesAux rest []
  | '\r' :: rest, acc => acc.reverse :: splitlinesAux rest []
  | c :: rest, acc => splitlinesAux rest (c :: acc)

def pySplitlines (s : PyStr) : List PyStr := splitlinesAux s []

/-- The normalization in the parsing loop: if name.startswith a single
underscore then name becomes name from index 1 on. -/
def stripUnderscore (name : PyStr) : PyStr :=
  if name.head? = some '_' then name.drop 1 else name

/-- The symbols dict: insertion-ordered, assignment overwrites in place. -/
abbrev Dict := List (PyStr × Int)

def dictInsert : Dict → PyStr → Int → Dict
  | [], k, v => [(k, v)]
  | (k2, v2) :: rest, k, v =>
    if k2 = k then (k, v) :: rest else (k2, v2) :: dictInsert rest k v

def dictFind : Dict → PyStr → Option Int
  | [], _ => none
  | (k2, v2) :: rest, k => if k2 = k then some v2 else dictFind rest k

/-- One iteration of the parsing loop over nm output lines. -/
def loadStep (acc : Dict) (line : PyStr) : Except PyStr Dict :=
  match pySplit line with
  | addr :: _ :: name :: _ =>
    match pyIntHex addr with
    | some v => .ok (dictInsert acc (stripUnderscore name) v)
    | none => .error ("invalid literal for int() with base 16: ".data ++ addr)
  | _ => .ok acc

/-- The whole parsing loop: an error is an uncaught ValueError from int(). -/
def loadSymbolsFrom (acc : Dict) : List PyStr → Except PyStr Dict
  | [] => .ok acc
  | l :: ls =>
    match loadStep acc l with
    | .ok acc2 => loadSymbolsFrom acc2 ls
    | .error e => .error e

/-- The key and value a line contributes to the dict, when it does. -/
def lineKey (line : PyStr) : Option (PyStr × Int) :=
  match pySplit line with
  | addr :: _ :: name :: _ => (pyIntHex addr).map (fun v => (stripUnderscore name, v))
  | _ => none

/-- REFERENCE_SYMBOL from the script. -/
def REFERENCE_SYMBOL : PyStr := "_ZN4lldb10SBDebugger10InitializeEv".data

/-- INTERNAL_SYMBOLS from the script: (mangled, demangled label) pairs. -/
def INTERNAL_SYMBOLS : List (PyStr × PyStr) := [
  ("_ZN12lldb_private17DataVisualization10Categories11GetCategoryENS_11ConstStringERNSt3__110shared_ptrINS_16TypeCategoryImplEEEb".data,
   "DataVisualization::Categories::GetCategory".data),
  ("_ZN12lldb_private17DataVisualization10Categories6EnableERKNSt3__110shared_ptrINS_16TypeCategoryImplEEEj".data,
   "DataVisualization::Categories::Enable".data),
  ("_ZN12lldb_private16TypeCategoryImpl14AddTypeSummaryEN4llvm9StringRefEN4lldb18FormatterMatchTypeENSt3__110shared_ptrINS_15TypeSummaryImplEEE".data,
   "TypeCategoryImpl::AddTypeSummary".data),
  ("_ZN12lldb_private16TypeCategoryImpl16AddTypeSyntheticEN4llvm9StringRefEN4lldb18FormatterMatchTypeENSt3__110shared_ptrINS_17SyntheticChildrenEEE".data,
   "TypeCategoryImpl::AddTypeSynthetic".data),
  ("_ZN12lldb_private16TypeCategoryImpl13AddTypeFormatEN4llvm9StringRefEN4lldb18FormatterMatchTypeENSt3__110shared_ptrINS_14TypeFormatImplEEE".data,
   "TypeCategoryImpl::AddTypeFormat".data),
  ("_ZN12lldb_private16TypeCategoryImpl13AddTypeFilterEN4llvm9StringRefEN4lldb18FormatterMatchTypeENSt3__110shared_ptrINS_14TypeFilterImplEEE".data,
   "TypeCategoryImpl::AddTypeFilter".data),
  ("_ZN12lldb_private24CXXFunctionSummaryFormatC2ERKNS_15TypeSummaryImpl5FlagsENSt3__18functionIFbRNS_11ValueObjectERNS_6StreamERKNS_18TypeSummaryOptionsEEEEPKcj".data,
   "CXXFunctionSummaryFormat::ctor".data),
  ("_ZN12lldb_private13FormatManager11GetCategoryENS_11ConstStringEb".data,
   "FormatManager::GetCategory".data),
  ("_ZN12lldb_private10formatters15AddCXXSyntheticENSt3__110shared_ptrINS_16TypeCategoryImplEEENS1_8functionIFPNS_25SyntheticChildrenFrontEndEPNS_20CXXSyntheticChildrenENS2_INS_11ValueObjectEEEEEEPKcN4llvm9StringRefENS_17SyntheticChildren5FlagsEb".data,
   "formatters::AddCXXSynthetic".data)]

/-- The per-target record in the report. -/
structure Entry where
  mangled : PyStr
  offset : PyStr
  relative : PyStr
deriving DecidableEq, Repr

/-- The JSON report, with symbols keyed by label in target-list order. -/
structure Report where
  version : PyStr
  reference_symbol : PyStr
  reference_offset : PyStr
  symbols : List (PyStr × Option Entry)
deriving DecidableEq, Repr

inductive DumpOutcome where
  | report : Report → DumpOutcome
  | sysExit : Nat → DumpOutcome
  | valueError : PyStr → DumpOutcome
deriving DecidableEq, Repr

structure DumpRun where
  stderrLog : List PyStr
  outcome : DumpOutcome
deriving DecidableEq, Repr

/-- Process exit status: 0 on a report (main prints it and returns), the
sys.exit code on exit, 1 on an uncaught exception. -/
def runExitCode (r : DumpRun) : Nat :=
  match r.outcome with
  | .report _ => 0
  | .sysExit c => c
  | .valueError _ => 1

/-- What main writes to standard output: the JSON report, or nothing. -/
def mainStdout (r : DumpRun) : Option Report :=
  match r.outcome with
  | .report rep => some rep
  | .sysExit _ => none
  | .valueError _ => none

/-- A captured subprocess result. -/
structure CmdResult where
  returncode : Int
  stdout : PyStr
  stderr : PyStr

/-- The external world the script touches: the nm run, whether the sibling
lldb binary exists, and the lldb --version run used when it does. -/
structure World where
  nmResult : CmdResult
  lldbBinExists : Bool
  lldbVersionResult : CmdResult

/-- Consume a literal from the front, returning the remainder. -/
def dropLit : PyStr → PyStr → Option PyStr
  | [], cs => some cs
  | _ :: _, [] => none
  | p :: ps, c :: cs => if p = c then dropLit ps cs else none

/-- Greedy match of a digit-triple d+.d+.d+ anchored at the start; returns
the matched text and the remainder.  Greedy maximal digit runs coincide with
regex backtracking semantics here because a digit can never match the literal
dot or the literal that follows the pattern. -/
def matchTripleAt (cs : PyStr) : Option (PyStr × PyStr) :=
  let p1 := cs.span Char.isDigit
  if p1.1 = [] then none
  else
    match p1.2 with
    | '.' :: r2 =>
      let p2 := r2.span Char.isDigit
      if p2.1 = [] then none
      else
        match p2.2 with
        | '.' :: r4 =>
          let p3 := r4.span Char.isDigit
          if p3.1 = [] then none
          else some (p1.1 ++ '.' :: (p2.1 ++ '.' :: p3.1), p3.2)
        | _ => none
    | _ => none

/-- Anchored match for the lldb --version pattern; yields group 1. -/
def matchVersionAt (cs : PyStr) : Option PyStr :=
  match dropLit ("version ".data) cs with
  | some rest => (matchTripleAt rest).map (fun p => p.1)
  | none => none

/-- Anchored match for the library-name pattern; yields group 1. -/
def matchLibAt (cs : PyStr) : Option PyStr :=
  match dropLit ("liblldb.".data) cs with
  | some rest =>
    match matchTripleAt rest with
    | some pr =>
      match dropLit (".dylib".data) pr.2 with
      | some _ => some pr.1
      | none => none
    | none => none
  | none => none

/-- re.search: try the anchored match at each successive start position. -/
def reSearch (m : PyStr → Option PyStr) : PyStr → Option PyStr
  | [] => m []
  | c :: rest =>
    match m (c :: rest) with
    | some v => some v
    | none => reSearch m rest

/-- get_lldb_version: probe the sibling lldb binary when it exists, else fall
back to the version triple in the library file name, else unknown. -/
def get_lldb_version (liblldb_path : PyStr) (w : World) : PyStr :=
  match (if w.lldbBinExists then reSearch matchVersionAt w.lldbVersionResult.stdout else none) with
  | some v => v
  | none =>
    match reSearch matchLibAt liblldb_path with
    | some v => v
    | none => "unknown".data

/-- The per-target loop of dump_offsets: entries in list order, and the
warning lines printed to stderr for missing targets, in order. -/
def resolveTargets : List (PyStr × PyStr) → Dict → Int → List (PyStr × Option Entry) × List PyStr
  | [], _, _ => ([], [])
  | (mangled, demangled) :: rest, symbols, refOff =>
    let r := resolveTargets rest symbols refOff
    match dictFind symbols mangled with
    | some addr =>
      ((demangled, some ⟨mangled, pyHex addr, pyHex (addr - refOff)⟩) :: r.1, r.2)
    | none =>
      ((demangled, none) :: r.1, ("Warning: ".data ++ demangled ++ " not found".data) :: r.2)

/-- dump_offsets with the target list as an explicit parameter. -/
def dumpOffsetsWith (targets : List (PyStr × PyStr)) (liblldb_path : PyStr) (w : World) : DumpRun :=
  if w.nmResult.returncode ≠ 0 then
    { stderrLog := ["nm failed: ".data ++ w.nmResult.stderr], outcome := .sysExit 1 }
  else
    match loadSymbolsFrom [] (pySplitlines w.nmResult.stdout) with
    | .error e => { stderrLog := [], outcome := .valueError e }
    | .ok symbols =>
      match dictFind symbols REFERENCE_SYMBOL with
      | none =>
        { stderrLog := ["Reference symbol ".data ++ REFERENCE_SYMBOL ++ " not found!".data],
          outcome := .sysExit 1 }
      | some ref_offset =>
        let r := resolveTargets targets symbols ref_offset
        { stderrLog := r.2,
          outcome := .report
            { version := get_lldb_version liblldb_path w,
              reference_symbol := REFERENCE_SYMBOL,
              reference_offset := pyHex ref_offset,
              symbols := r.1 } }

/-- dump_offsets as in the script, over the fixed INTERNAL_SYMBOLS list. -/
def dump_offsets (liblldb_path : PyStr) (w : World) : DumpRun :=
  dumpOffsetsWith INTERNAL_SYMBOLS liblldb_path w


/-- A world where nm succeeded with the given stdout text, no sibling lldb
binary exists, and the version probe result is inert. -/
def worldOf (out : PyStr) : World :=
  { nmResult := { returncode := 0, stdout := out, stderr := [] },
    lldbBinExists := false,
    lldbVersionResult := { returncode := 0, stdout := [], stderr := [] } }

/-- The AddTypeSummary mangled name from INTERNAL_SYMBOLS. -/
def atsMangled : PyStr :=
  "_ZN12lldb_private16TypeCategoryImpl14AddTypeSummaryEN4llvm9StringRefEN4lldb18FormatterMatchTypeENSt3__110shared_ptrINS_15TypeSummaryImplEEE".data

def atsLabel : PyStr := "TypeCategoryImpl::AddTypeSummary".data

/-- The synthetic dump exactly as the spec scenario words it. -/
def c1Stdout : PyStr :=
  "1000 T _ZN4lldb10SBDebugger10InitializeEv\n".data ++ "2000 T ".data ++ atsMangled

/-- The same dump with the extra platform underscore on each raw name. -/
def c1StdoutMac : PyStr :=
  "1000 T __ZN4lldb10SBDebugger10InitializeEv\n".data ++ "2000 T _".data ++ atsMangled

theorem digitChar_fact : ∀ d : Nat, d < 16 →
    isHexDigit (Nat.digitChar d) = true ∧ hexVal (Nat.digitChar d) = d := by decide

theorem hex_ne_und (c : Char) (h : isHexDigit c = true) : (c != '_') = true := by
  by_cases hc : c = '_'
  · subst hc; exact absurd h (by decide)
  · simp [bne_iff_ne, hc]

theorem natHexDigitsAux_spec (f : Nat) : ∀ n, n < f →
    (∀ c ∈ natHexDigitsAux f n, isHexDigit c = true) ∧ natHexDigitsAux f n ≠ [] ∧
    (natHexDigitsAux f n).foldl (fun a c => 16 * a + hexVal c) 0 = n := by
  induction f with
  | zero => intro n h; omega
  | succ f ih =>
    intro n h
    by_cases h16 : n < 16
    · have hd := digitChar_fact n h16
      refine ⟨?_, ?_, ?_⟩ <;> simp [natHexDigitsAux, h16, hd.1, hd.2]
    · have hlt : n / 16 < f := by omega
      obtain ⟨ha, hne, hv⟩ := ih (n / 16) hlt
      have hd := digitChar_fact (n % 16) (by omega)
      refine ⟨?_, ?_, ?_⟩
      · intro c hc
        simp only [natHexDigitsAux, if_neg h16, List.mem_append, List.mem_singleton] at hc
        rcases hc with hc | hc
        · exact ha c hc
        · subst hc; exact hd.1
      · simp [natHexDigitsAux, h16]
      · simp only [natHexDigitsAux, if_neg h16, List.foldl_append, hv, List.foldl_cons,
          List.foldl_nil, hd.2]
        omega

theorem natHexDigits_spec (n : Nat) :
    (∀ c ∈ natHexDigits n, isHexDigit c = true) ∧ natHexDigits n ≠ [] ∧
    (natHexDigits n).foldl (fun a c => 16 * a + hexVal c) 0 = n :=
  natHexDigitsAux_spec (n + 1) n (by omega)

theorem hexTail_cons_hex (c : Char) (rest : PyStr) (h : c ≠ '_') :
    hexTail (c :: rest) = (isHexDigit c && hexTail rest) := by
  conv_lhs => rw [hexTail.eq_def]
  simp only [if_neg h]

theorem hexTail_of_all : ∀ l : PyStr, (∀ c ∈ l, isHexDigit c = true) → hexTail l = true := by
  intro l
  induction l with
  | nil => intro _; rfl
  | cons c rest ih =>
    intro h
    have hc : isHexDigit c = true := h c (List.mem_cons_self c rest)
    have hcu : c ≠ '_' := by
      intro he; subst he; exact absurd hc (by decide)
    rw [hexTail_cons_hex c rest hcu, hc, Bool.true_and]
    exact ih (fun x hx => h x (List.mem_cons_of_mem c hx))

theorem hexCore_of_all (l : PyStr) (hne : l ≠ [])
    (hall : ∀ c ∈ l, isHexDigit c = true) : hexCore l = true := by
  cases l with
  | nil => exact absurd rfl hne
  | cons c rest =>
    have hc : isHexDigit c = true := hall c (List.mem_cons_self c rest)
    have ht : hexTail rest = true :=
      hexTail_of_all rest (fun x hx => hall x (List.mem_cons_of_mem c hx))
    simp [hexCore, hc, ht]

theorem hexStrVal_natHexDigits (n : Nat) : hexStrVal (natHexDigits n) = n := by
  obtain ⟨ha, _, hv⟩ := natHexDigits_spec n
  unfold hexStrVal
  rw [List.filter_eq_self.mpr (fun c hc => hex_ne_und c (ha c hc))]
  exact hv

theorem parseHexNat_natHexDigits (n : Nat) : parseHexNat (natHexDigits n) = some n := by
  obtain ⟨ha, hne, _⟩ := natHexDigits_spec n
  unfold parseHexNat
  rw [hexCore_of_all (natHexDigits n) hne ha, if_pos rfl, hexStrVal_natHexDigits]

theorem hexAfterBase_natHexDigits (n : Nat) : hexAfterBase (natHexDigits n) = some n := by
  obtain ⟨ha, hne, _⟩ := natHexDigits_spec n
  rcases hl : natHexDigits n with _ | ⟨c, cs⟩
  · exact absurd hl hne
  · have hc : isHexDigit c = true := ha c (hl ▸ List.mem_cons_self c cs)
    have hp : parseHexNat (c :: cs) = some n := hl ▸ parseHexNat_natHexDigits n
    show hexAfterBase (c :: cs) = some n
    unfold hexAfterBase
    split
    · rename_i rest heq
      injection heq with h1 _
      subst h1
      exact absurd hc (by decide)
    · exact hp

theorem pyIntHex_pyHex (z : Int) : pyIntHex (pyHex z) = some z := by
  unfold pyHex
  by_cases hz : z < 0
  · rw [if_pos hz]
    have h1 : pyIntHex ('-' :: '0' :: 'x' :: natHexDigits z.natAbs)
        = (parsePrefixedHex ('0' :: 'x' :: natHexDigits z.natAbs)).map
            (fun (n : Nat) => -(n : Int)) := rfl
    have h2 : parsePrefixedHex ('0' :: 'x' :: natHexDigits z.natAbs)
        = hexAfterBase (natHexDigits z.natAbs) := rfl
    rw [h1, h2, hexAfterBase_natHexDigits]
    simp only [Option.map_some']
    congr 1
    omega
  · rw [if_neg hz]
    have h1 : pyIntHex ('0' :: 'x' :: natHexDigits z.toNat)
        = (parsePrefixedHex ('0' :: 'x' :: natHexDigits z.toNat)).map
            (fun (n : Nat) => (n : Int)) := rfl
    have h2 : parsePrefixedHex ('0' :: 'x' :: natHexDigits z.toNat)
        = hexAfterBase (natHexDigits z.toNat) := rfl
    rw [h1, h2, hexAfterBase_natHexDigits]
    simp only [Option.map_some']
    congr 1
    omega

theorem dictFind_insert_self (d : Dict) (k : PyStr) (v : Int) :
    dictFind (dictInsert d k v) k = some v := by
  induction d with
  | nil => simp [dictInsert, dictFind]
  | cons p rest ih =>
    obtain ⟨k2, v2⟩ := p
    by_cases h : k2 = k
    · simp [dictInsert, dictFind, h]
    · simp [dictInsert, dictFind, h, ih]

theorem dictFind_insert_ne (d : Dict) (k k2 : PyStr) (v : Int) (h : k2 ≠ k) :
    dictFind (dictInsert d k2 v) k = dictFind d k := by
  induction d with
  | nil => simp [dictInsert, dictFind, h]
  | cons p rest ih =>
    obtain ⟨k3, v3⟩ := p
    by_cases h3 : k3 = k2
    · subst h3
      simp [dictInsert, dictFind, h]
    · by_cases hk : k3 = k
      · subst hk
        simp [dictInsert, dictFind, h3]
      · simp [dictInsert, dictFind, h3, hk, ih]

theorem loadStep_short (acc : Dict) (line : PyStr)
    (h : (pySplit line).length < 3) : loadStep acc line = .ok acc := by
  unfold loadStep
  rcases hs : pySplit line with _ | ⟨a, _ | ⟨t, _ | ⟨n, r⟩⟩⟩
  · rfl
  · rfl
  · rfl
  · rw [hs] at h
    simp only [List.length_cons] at h
    omega

theorem loadStep_long (acc : Dict) (line a t n : PyStr) (r : List PyStr)
    (hs : pySplit line = a :: t :: n :: r) :
    loadStep acc line =
      match pyIntHex a with
      | some v => .ok (dictInsert acc (stripUnderscore n) v)
      | none => .error ("invalid literal for int() with base 16: ".data ++ a) := by
  unfold loadStep
  rw [hs]

theorem lineKey_long (line a t n : PyStr) (r : List PyStr)
    (hs : pySplit line = a :: t :: n :: r) :
    lineKey line = (pyIntHex a).map (fun v => (stripUnderscore n, v)) := by
  unfold lineKey
  rw [hs]

theorem loadStep_of_lineKey_some (acc : Dict) (line k : PyStr) (v : Int)
    (h : lineKey line = some (k, v)) : loadStep acc line = .ok (dictInsert acc k v) := by
  unfold lineKey at h
  rcases hs : pySplit line with _ | ⟨a, _ | ⟨t, _ | ⟨n, r⟩⟩⟩ <;> rw [hs] at h
  · exact absurd h (by simp)
  · exact absurd h (by simp)
  · exact absurd h (by simp)
  · replace h : (pyIntHex a).map (fun v => (stripUnderscore n, v)) = some (k, v) := h
    rcases hv : pyIntHex a with _ | v2 <;> rw [hv] at h
    · exact absurd h (by simp)
    · simp only [Option.map_some'] at h
      injection h with hpair
      injection hpair with hk hv2
      subst hk
      subst hv2
      rw [loadStep_long acc line a t n r hs, hv]

theorem loadStep_of_lineKey_none (acc : Dict) (line : PyStr)
    (h : lineKey line = none) :
    loadStep acc line = .ok acc ∨ ∃ e, loadStep acc line = .error e := by
  unfold lineKey at h
  rcases hs : pySplit line with _ | ⟨a, _ | ⟨t, _ | ⟨n, r⟩⟩⟩ <;> rw [hs] at h
  · exact Or.inl (loadStep_short acc line (by rw [hs]; simp))
  · exact Or.inl (loadStep_short acc line (by rw [hs]; simp))
  · exact Or.inl (loadStep_short acc line (by rw [hs]; simp))
  · replace h : (pyIntHex a).map (fun v => (stripUnderscore n, v)) = none := h
    rcases hv : pyIntHex a with _ | v2 <;> rw [hv] at h
    · refine Or.inr ⟨"invalid literal for int() with base 16: ".data ++ a, ?_⟩
      rw [loadStep_long acc line a t n r hs, hv]
    · exact absurd h (by simp)

theorem loadSymbolsFrom_skip (line : PyStr) (h : (pySplit line).length < 3) :
    ∀ (pre : List PyStr) (acc : Dict) (post : List PyStr),
      loadSymbolsFrom acc (pre ++ line :: post) = loadSymbolsFrom acc (pre ++ post) := by
  intro pre
  induction pre with
  | nil =>
    intro acc post
    simp only [List.nil_append, loadSymbolsFrom, loadStep_short acc line h]
  | cons p ps ih =>
    intro acc post
    simp only [List.cons_append, loadSymbolsFrom]
    cases hstep : loadStep acc p with
    | ok acc2 => exact ih acc2 post
    | error e => rfl

theorem dictFind_preserved (k : PyStr) :
    ∀ (post : List PyStr) (acc : Dict) (d : Dict),
      loadSymbolsFrom acc post = .ok d →
      (∀ l ∈ post, ∀ kv : PyStr × Int, lineKey l = some kv → kv.1 ≠ k) →
      dictFind d k = dictFind acc k := by
  intro post
  induction post with
  | nil =>
    intro acc d hok _
    simp only [loadSymbolsFrom] at hok
    injection hok with h
    rw [h]
  | cons l ls ih =>
    intro acc d hok hkeys
    simp only [loadSymbolsFrom] at hok
    cases hstep : loadStep acc l with
    | error e => rw [hstep] at hok; exact absurd hok (by simp)
    | ok acc2 =>
      rw [hstep] at hok
      have htail : ∀ x ∈ ls, ∀ kv : PyStr × Int, lineKey x = some kv → kv.1 ≠ k :=
        fun x hx => hkeys x (List.mem_cons_of_mem l hx)
      rcases hk : lineKey l with _ | ⟨k2, v2⟩
      · rcases loadStep_of_lineKey_none acc l hk with hok2 | ⟨e, he⟩
        · rw [hstep] at hok2
          injection hok2 with hacc
          rw [ih acc2 d hok htail, hacc]
        · rw [hstep] at he; exact absurd he (by simp)
      · have := loadStep_of_lineKey_some acc l k2 v2 hk
        rw [hstep] at this
        injection this with hacc
        have hne : k2 ≠ k := hkeys l (List.mem_cons_self l ls) (k2, v2) hk
        rw [ih acc2 d hok htail, hacc, dictFind_insert_ne acc k k2 v2 hne]

theorem resolveTargets_labels (targets : List (PyStr × PyStr)) (symbols : Dict) (refOff : Int) :
    (resolveTargets targets symbols refOff).1.map Prod.fst = targets.map Prod.snd := by
  induction targets with
  | nil => rfl
  | cons p rest ih =>
    obtain ⟨m, l⟩ := p
    cases hf : dictFind symbols m <;> simp [resolveTargets, hf, ih]

theorem resolveTargets_found (targets : List (PyStr × PyStr)) (symbols : Dict) (refOff : Int)
    (mangled label : PyStr) (addr : Int)
    (hmem : (mangled, label) ∈ targets) (hf : dictFind symbols mangled = some addr) :
    (label, some ⟨mangled, pyHex addr, pyHex (addr - refOff)⟩)
      ∈ (resolveTargets targets symbols refOff).1 := by
  induction targets with
  | nil => exact absurd hmem (List.not_mem_nil _)
  | cons p rest ih =>
    obtain ⟨m, l⟩ := p
    rcases List.mem_cons.mp hmem with heq | htail
    · injection heq with hm hl
      subst hm
      subst hl
      simp [resolveTargets, hf]
    · cases hf2 : dictFind symbols m <;> simp [resolveTargets, hf2] <;>
        first
        | exact ih htail
        | exact Or.inr (ih htail)

theorem resolveTargets_missing (targets : List (PyStr × PyStr)) (symbols : Dict) (refOff : Int)
    (mangled label : PyStr)
    (hmem : (mangled, label) ∈ targets) (hf : dictFind symbols mangled = none) :
    (label, (none : Option Entry)) ∈ (resolveTargets targets symbols refOff).1 ∧
      ("Warning: ".data ++ label ++ " not found".data) ∈ (resolveTargets targets symbols refOff).2 := by
  induction targets with
  | nil => exact absurd hmem (List.not_mem_nil _)
  | cons p rest ih =>
    obtain ⟨m, l⟩ := p
    rcases List.mem_cons.mp hmem with heq | htail
    · injection heq with hm hl
      subst hm
      subst hl
      simp [resolveTargets, hf]
    · obtain ⟨ih1, ih2⟩ := ih htail
      cases hf2 : dictFind symbols m <;> simp [resolveTargets, hf2] <;>
        first
        | exact ⟨ih1, ih2⟩
        | exact ⟨Or.inr ih1, Or.inr ih2⟩

theorem dumpOffsetsWith_success (targets : List (PyStr × PyStr)) (path : PyStr) (w : World)
    (symbols : Dict) (refAddr : Int)
    (hrc : w.nmResult.returncode = 0)
    (hload : loadSymbolsFrom [] (pySplitlines w.nmResult.stdout) = .ok symbols)
    (href : dictFind symbols REFERENCE_SYMBOL = some refAddr) :
    dumpOffsetsWith targets path w =
      { stderrLog := (resolveTargets targets symbols refAddr).2,
        outcome := .report
          { version := get_lldb_version path w,
            reference_symbol := REFERENCE_SYMBOL,
            reference_offset := pyHex refAddr,
            symbols := (resolveTargets targets symbols refAddr).1 } } := by
  unfold dumpOffsetsWith
  split
  · rename_i hc
    exact absurd hrc hc
  · split
    · rename_i e heq
      rw [hload] at heq
      exact absurd heq (by simp)
    · rename_i symbols2 heq
      rw [hload] at heq
      injection heq with hsym
      subst hsym
      split
      · rename_i heq2
        rw [href] at heq2
        exact absurd heq2 (by simp)
      · rename_i ref2 heq2
        rw [href] at heq2
        injection heq2 with hr
        subst hr
        rfl

theorem dumpOffsetsWith_noref (targets : List (PyStr × PyStr)) (path : PyStr) (w : World)
    (symbols : Dict)
    (hrc : w.nmResult.returncode = 0)
    (hload : loadSymbolsFrom [] (pySplitlines w.nmResult.stdout) = .ok symbols)
    (href : dictFind symbols REFERENCE_SYMBOL = none) :
    dumpOffsetsWith targets path w =
      { stderrLog := ["Reference symbol ".data ++ REFERENCE_SYMBOL ++ " not found!".data],
        outcome := .sysExit 1 } := by
  unfold dumpOffsetsWith
  split
  · rename_i hc
    exact absurd hrc hc
  · split
    · rename_i e heq
      rw [hload] at heq
      exact absurd heq (by simp)
    · rename_i symbols2 heq
      rw [hload] at heq
      injection heq with hsym
      subst hsym
      split
      · rfl
      · rename_i ref2 heq2
        rw [href] at heq2
        exact absurd heq2 (by simp)

theorem dumpOffsetsWith_nmfail (targets : List (PyStr × PyStr)) (path : PyStr) (w : World)
    (hrc : w.nmResult.returncode ≠ 0) :
    dumpOffsetsWith targets path w =
      { stderrLog := ["nm failed: ".data ++ w.nmResult.stderr], outcome := .sysExit 1 } := by
  unfold dumpOffsetsWith
  rw [if_pos hrc]

theorem runExitCode_version_independent (targets : List (PyStr × PyStr)) (path : PyStr)
    (w1 w2 : World) (h : w1.nmResult = w2.nmResult) :
    runExitCode (dumpOffsetsWith targets path w1) =
      runExitCode (dumpOffsetsWith targets path w2) := by
  unfold dumpOffsetsWith
  rw [h]
  by_cases hrc : w2.nmResult.returncode ≠ 0
  · rw [if_pos hrc, if_pos hrc]
  · rw [if_neg hrc, if_neg hrc]
    split
    · rfl
    · split <;> rfl

/-- C1 (counterexample): on the dump written exactly as the spec scenario has
it, with single-underscore raw names, the one-underscore stripping turns both
names into keys that no longer match REFERENCE_SYMBOL, so dump_offsets exits
with status 1 and writes no report at all, rather than producing the claimed
report with reference_offset 0x1000. -/
theorem c1_counterexample :
    dumpOffsetsWith [(atsMangled, atsLabel)] ("liblldb.dylib".data) (worldOf c1Stdout) =
      { stderrLog := ["Reference symbol ".data ++ REFERENCE_SYMBOL ++ " not found!".data],
        outcome := .sysExit 1 } ∧
      mainStdout
        (dumpOffsetsWith [(atsMangled, atsLabel)] ("liblldb.dylib".data) (worldOf c1Stdout)) =
        none :=
  ⟨by decide, by decide⟩

/-- C1 (amended): when each dump line carries the extra platform leading
underscore (1000 T with a double-underscore reference name, 2000 T with the
underscore-prefixed AddTypeSummary name), dump_offsets emits the report the
scenario describes: reference_offset 0x1000 and the AddTypeSummary entry with
offset 0x2000 and relative 0x1000. -/
theorem c1_amended_report :
    dumpOffsetsWith [(atsMangled, atsLabel)] ("liblldb.dylib".data) (worldOf c1StdoutMac) =
      { stderrLog := [],
        outcome := .report
          { version := "unknown".data,
            reference_symbol := REFERENCE_SYMBOL,
            reference_offset := "0x1000".data,
            symbols := [(atsLabel, some ⟨atsMangled, "0x2000".data, "0x1000".data⟩)] } } := by
  decide

/-- C2: parsing normalizes every third token by stripping exactly one leading
underscore before it becomes the dict key: an underscore-prefixed name loses
only that first character, a name with no leading underscore is unchanged,
and the step of the loop keys the dict by the stripped name. -/
theorem c2_strip_single_underscore (name a t : PyStr) (r : List PyStr) (acc : Dict)
    (line : PyStr) (v : Int)
    (hsplit : pySplit line = a :: t :: name :: r)
    (hv : pyIntHex a = some v) :
    stripUnderscore ('_' :: name) = name ∧
      (name.head? ≠ some '_' → stripUnderscore name = name) ∧
      loadStep acc line = .ok (dictInsert acc (stripUnderscore name) v) := by
  refine ⟨?_, ?_, ?_⟩
  · simp [stripUnderscore]
  · intro h
    simp [stripUnderscore, h]
  · rw [loadStep_long acc line a t name r hsplit, hv]

theorem c2_witness :
    stripUnderscore ('_' :: "_foo".data) = "_foo".data ∧
      (("_foo".data : PyStr).head? ≠ some '_' → stripUnderscore "_foo".data = "_foo".data) ∧
      loadStep [] ("1000 T _foo".data) =
        .ok (dictInsert [] (stripUnderscore "_foo".data) 4096) :=
  c2_strip_single_underscore "_foo".data "1000".data "T".data [] [] ("1000 T _foo".data) 4096
    (by decide) (by decide)

/-- C3: whenever nm succeeded, the reference symbol resolves, and a target
mangled name is in the parsed table at some address, the emitted report has a
non-null entry for that target label whose relative field is hex() of the
signed difference between the target address and the reference address, and
that hex string parses back (via the int(s, 16) model) to exactly that signed
difference. -/
theorem c3_relative_offset (path : PyStr) (w : World) (symbols : Dict) (refAddr addr : Int)
    (mangled label : PyStr)
    (hrc : w.nmResult.returncode = 0)
    (hload : loadSymbolsFrom [] (pySplitlines w.nmResult.stdout) = .ok symbols)
    (href : dictFind symbols REFERENCE_SYMBOL = some refAddr)
    (hmem : (mangled, label) ∈ INTERNAL_SYMBOLS)
    (haddr : dictFind symbols mangled = some addr) :
    ∃ rep : Report, (dump_offsets path w).outcome = .report rep ∧
      (label, some ⟨mangled, pyHex addr, pyHex (addr - refAddr)⟩) ∈ rep.symbols ∧
      pyIntHex (pyHex (addr - refAddr)) = some (addr - refAddr) := by
  unfold dump_offsets
  rw [dumpOffsetsWith_success INTERNAL_SYMBOLS path w symbols refAddr hrc hload href]
  exact ⟨_, rfl,
    resolveTargets_found INTERNAL_SYMBOLS symbols refAddr mangled label addr hmem haddr,
    pyIntHex_pyHex _⟩

theorem c3_witness :
    ∃ rep : Report,
      (dump_offsets ("liblldb.dylib".data) (worldOf c1StdoutMac)).outcome = .report rep ∧
      (atsLabel, some ⟨atsMangled, pyHex 8192, pyHex ((8192 : Int) - 4096)⟩) ∈ rep.symbols ∧
      pyIntHex (pyHex ((8192 : Int) - 4096)) = some ((8192 : Int) - 4096) :=
  c3_relative_offset ("liblldb.dylib".data) (worldOf c1StdoutMac)
    [(REFERENCE_SYMBOL, 4096), (atsMangled, 8192)] 4096 8192 atsMangled atsLabel
    (by decide) (by rfl) (by decide) (by decide) (by decide)

/-- C4: if nm succeeded but the parsed table has no entry for
REFERENCE_SYMBOL, dump_offsets prints the reference-symbol diagnostic to
stderr, exits with status 1, and writes no JSON report to stdout. -/
theorem c4_missing_reference (path : PyStr) (w : World) (symbols : Dict)
    (hrc : w.nmResult.returncode = 0)
    (hload : loadSymbolsFrom [] (pySplitlines w.nmResult.stdout) = .ok symbols)
    (href : dictFind symbols REFERENCE_SYMBOL = none) :
    dump_offsets path w =
      { stderrLog := ["Reference symbol ".data ++ REFERENCE_SYMBOL ++ " not found!".data],
        outcome := .sysExit 1 } ∧
      runExitCode (dump_offsets path w) = 1 ∧
      mainStdout (dump_offsets path w) = none := by
  have h := dumpOffsetsWith_noref INTERNAL_SYMBOLS path w symbols hrc hload href
  unfold dump_offsets
  rw [h]
  exact ⟨rfl, rfl, rfl⟩

theorem c4_witness :
    dump_offsets ("liblldb.dylib".data) (worldOf ("1000 T x".data)) =
      { stderrLog := ["Reference symbol ".data ++ REFERENCE_SYMBOL ++ " not found!".data],
        outcome := .sysExit 1 } ∧
      runExitCode (dump_offsets ("liblldb.dylib".data) (worldOf ("1000 T x".data))) = 1 ∧
      mainStdout (dump_offsets ("liblldb.dylib".data) (worldOf ("1000 T x".data))) = none :=
  c4_missing_reference ("liblldb.dylib".data) (worldOf ("1000 T x".data)) [("x".data, 4096)]
    (by decide) (by rfl) (by decide)

/-- C5: if nm exits non-zero, dump_offsets prints the nm failure message with
the captured stderr text, exits with status 1, and writes no JSON report. -/
theorem c5_nm_failure (path : PyStr) (w : World) (hrc : w.nmResult.returncode ≠ 0) :
    dump_offsets path w =
      { stderrLog := ["nm failed: ".data ++ w.nmResult.stderr], outcome := .sysExit 1 } ∧
      runExitCode (dump_offsets path w) = 1 ∧
      mainStdout (dump_offsets path w) = none := by
  have h := dumpOffsetsWith_nmfail INTERNAL_SYMBOLS path w hrc
  unfold dump_offsets
  rw [h]
  exact ⟨rfl, rfl, rfl⟩

theorem c5_witness :
    dump_offsets ("liblldb.dylib".data)
        { nmResult := { returncode := 1, stdout := [], stderr := "nm: cannot open".data },
          lldbBinExists := false,
          lldbVersionResult := { returncode := 0, stdout := [], stderr := [] } } =
      { stderrLog := ["nm failed: ".data ++ "nm: cannot open".data], outcome := .sysExit 1 } ∧
      runExitCode (dump_offsets ("liblldb.dylib".data)
        { nmResult := { returncode := 1, stdout := [], stderr := "nm: cannot open".data },
          lldbBinExists := false,
          lldbVersionResult := { returncode := 0, stdout := [], stderr := [] } }) = 1 ∧
      mainStdout (dump_offsets ("liblldb.dylib".data)
        { nmResult := { returncode := 1, stdout := [], stderr := "nm: cannot open".data },
          lldbBinExists := false,
          lldbVersionResult := { returncode := 0, stdout := [], stderr := [] } }) = none :=
  c5_nm_failure ("liblldb.dylib".data)
    { nmResult := { returncode := 1, stdout := [], stderr := "nm: cannot open".data },
      lldbBinExists := false,
      lldbVersionResult := { returncode := 0, stdout := [], stderr := [] } }
    (by decide)

/-- C6: a target of the fixed list that is absent from the parsed table gets a
null entry under its label, a stderr warning naming that label, the report
still carries one entry per target in list order, and the run still ends as a
report with exit status 0. -/
theorem c6_missing_target (path : PyStr) (w : World) (symbols : Dict) (refAddr : Int)
    (mangled label : PyStr)
    (hrc : w.nmResult.returncode = 0)
    (hload : loadSymbolsFrom [] (pySplitlines w.nmResult.stdout) = .ok symbols)
    (href : dictFind symbols REFERENCE_SYMBOL = some refAddr)
    (hmem : (mangled, label) ∈ INTERNAL_SYMBOLS)
    (hmiss : dictFind symbols mangled = none) :
    ∃ rep : Report, (dump_offsets path w).outcome = .report rep ∧
      (label, (none : Option Entry)) ∈ rep.symbols ∧
      ("Warning: ".data ++ label ++ " not found".data) ∈ (dump_offsets path w).stderrLog ∧
      rep.symbols.map Prod.fst = INTERNAL_SYMBOLS.map Prod.snd ∧
      runExitCode (dump_offsets path w) = 0 := by
  unfold dump_offsets
  rw [dumpOffsetsWith_success INTERNAL_SYMBOLS path w symbols refAddr hrc hload href]
  obtain ⟨h1, h2⟩ :=
    resolveTargets_missing INTERNAL_SYMBOLS symbols refAddr mangled label hmem hmiss
  exact ⟨_, rfl, h1, h2, resolveTargets_labels INTERNAL_SYMBOLS symbols refAddr, rfl⟩

theorem c6_witness :
    ∃ rep : Report,
      (dump_offsets ("liblldb.dylib".data)
          (worldOf ("1000 T __ZN4lldb10SBDebugger10InitializeEv".data))).outcome = .report rep ∧
      (atsLabel, (none : Option Entry)) ∈ rep.symbols ∧
      ("Warning: ".data ++ atsLabel ++ " not found".data) ∈
        (dump_offsets ("liblldb.dylib".data)
          (worldOf ("1000 T __ZN4lldb10SBDebugger10InitializeEv".data))).stderrLog ∧
      rep.symbols.map Prod.fst = INTERNAL_SYMBOLS.map Prod.snd ∧
      runExitCode (dump_offsets ("liblldb.dylib".data)
        (worldOf ("1000 T __ZN4lldb10SBDebugger10InitializeEv".data))) = 0 :=
  c6_missing_target ("liblldb.dylib".data)
    (worldOf ("1000 T __ZN4lldb10SBDebugger10InitializeEv".data))
    [(REFERENCE_SYMBOL, 4096)] 4096 atsMangled atsLabel
    (by decide) (by rfl) (by decide) (by decide) (by decide)

/-- C7: a line whose whitespace tokenization yields fewer than three tokens is
skipped by the parsing loop with no effect and no failure, wherever it sits in
the nm output; a line with three or more tokens is processed purely from its
first token (the address) and third token (the name), so the second token and
any trailing tokens never influence the step. -/
theorem c7_line_tokenization (acc : Dict) (pre post : List PyStr) (line l1 l2 a t1 t2 n : PyStr)
    (r1 r2 : List PyStr)
    (hshort : (pySplit line).length < 3)
    (h1 : pySplit l1 = a :: t1 :: n :: r1) (h2 : pySplit l2 = a :: t2 :: n :: r2) :
    loadSymbolsFrom acc (pre ++ line :: post) = loadSymbolsFrom acc (pre ++ post) ∧
      loadStep acc l1 = loadStep acc l2 := by
  refine ⟨loadSymbolsFrom_skip line hshort pre acc post, ?_⟩
  rw [loadStep_long acc l1 a t1 n r1 h1, loadStep_long acc l2 a t2 n r2 h2]

theorem c7_witness :
    loadSymbolsFrom [] ([] ++ " U _undefined".data :: ["1000 T _foo".data]) =
        loadSymbolsFrom [] ([] ++ ["1000 T _foo".data]) ∧
      loadStep [] ("1000 T _foo extra".data) = loadStep [] ("1000 t _foo junk junk2".data) :=
  c7_line_tokenization [] [] ["1000 T _foo".data] (" U _undefined".data)
    ("1000 T _foo extra".data) ("1000 t _foo junk junk2".data)
    "1000".data "T".data "t".data "_foo".data ["extra".data] ["junk".data, "junk2".data]
    (by decide) (by decide) (by decide)

/-- C8: when a qualifying line writes key k with value v and no later line of
the input writes key k, the finished table maps k to v: dict assignment makes
the last occurrence of a key win. -/
theorem c8_last_occurrence_wins (pre : List PyStr) (acc : Dict) (post : List PyStr)
    (line k : PyStr) (v : Int) (d : Dict)
    (hok : loadSymbolsFrom acc (pre ++ line :: post) = .ok d)
    (hkey : lineKey line = some (k, v))
    (hlast : ∀ l ∈ post, ∀ kv : PyStr × Int, lineKey l = some kv → kv.1 ≠ k) :
    dictFind d k = some v := by
  revert hok
  induction pre generalizing acc with
  | nil =>
    intro hok
    rw [List.nil_append] at hok
    simp only [loadSymbolsFrom] at hok
    rw [loadStep_of_lineKey_some acc line k v hkey] at hok
    replace hok : loadSymbolsFrom (dictInsert acc k v) post = .ok d := hok
    rw [dictFind_preserved k post (dictInsert acc k v) d hok hlast]
    exact dictFind_insert_self acc k v
  | cons p ps ih =>
    intro hok
    rw [List.cons_append] at hok
    simp only [loadSymbolsFrom] at hok
    cases hstep : loadStep acc p with
    | error e =>
      rw [hstep] at hok
      exact absurd hok (by simp)
    | ok acc2 =>
      rw [hstep] at hok
      exact ih acc2 hok

theorem c8_witness :
    dictFind [("dup".data, 8192)] ("dup".data) = some 8192 :=
  c8_last_occurrence_wins ["1000 T dup".data] [] [] ("2000 T dup".data) ("dup".data) 8192
    [("dup".data, 8192)] (by rfl) (by decide) (by simp)

/-- C9: with no sibling lldb binary and no version triple in the library file
name, get_lldb_version returns the literal unknown, every report the run can
emit carries that version, and the version-probe part of the world never
changes the process exit status. -/
theorem c9_version_fallback_unknown (path : PyStr) (w : World)
    (h1 : w.lldbBinExists = false)
    (h2 : reSearch matchLibAt path = none) :
    get_lldb_version path w = "unknown".data ∧
      (∀ rep : Report, (dump_offsets path w).outcome = .report rep →
        rep.version = "unknown".data) ∧
      (∀ (b : Bool) (vr : CmdResult),
        runExitCode (dump_offsets path
            { nmResult := w.nmResult, lldbBinExists := b, lldbVersionResult := vr }) =
          runExitCode (dump_offsets path w)) := by
  have hv : get_lldb_version path w = "unknown".data := by
    unfold get_lldb_version
    rw [h1]
    simp only [Bool.false_eq_true, if_false]
    rw [h2]
  refine ⟨hv, ?_, ?_⟩
  · intro rep hrep
    unfold dump_offsets dumpOffsetsWith at hrep
    split at hrep
    · exact absurd hrep (by simp)
    · split at hrep
      · exact absurd hrep (by simp)
      · split at hrep
        · exact absurd hrep (by simp)
        · simp only [DumpOutcome.report.injEq] at hrep
          rw [← hrep, ← hv]
  · intro b vr
    exact runExitCode_version_independent INTERNAL_SYMBOLS path
      { nmResult := w.nmResult, lldbBinExists := b, lldbVersionResult := vr } w rfl

theorem c9_witness :
    get_lldb_version ("liblldb.dylib".data) (worldOf c1StdoutMac) = "unknown".data ∧
      (∀ rep : Report,
        (dump_offsets ("liblldb.dylib".data) (worldOf c1StdoutMac)).outcome = .report rep →
          rep.version = "unknown".data) ∧
      (∀ (b : Bool) (vr : CmdResult),
        runExitCode (dump_offsets ("liblldb.dylib".data)
            { nmResult := (worldOf c1StdoutMac).nmResult, lldbBinExists := b,
              lldbVersionResult := vr }) =
          runExitCode (dump_offsets ("liblldb.dylib".data) (worldOf c1StdoutMac))) :=
  c9_version_fallback_unknown ("liblldb.dylib".data) (worldOf c1StdoutMac)
    (by decide) (by decide)

/-- C10: a qualifying line (three or more tokens) whose first token is not a
base-16 numeral makes the loop raise instead of skipping the line: on the
line hello T foo the loop propagates the int() ValueError and dump_offsets
ends as an uncaught exception, not a report. -/
theorem c10_bad_hex_uncaught :
    (pySplit ("hello T foo".data)).length ≥ 3 ∧
      pyIntHex ("hello".data) = none ∧
      loadSymbolsFrom [] [("hello T foo".data)] =
        .error ("invalid literal for int() with base 16: ".data ++ "hello".data) ∧
      (dump_offsets ("liblldb.dylib".data) (worldOf ("hello T foo".data))).outcome =
        .valueError ("invalid literal for int() with base 16: ".data ++ "hello".data) :=
  ⟨by decide, by decide, by rfl, by decide⟩

/-- Totality of the parsing loop under the C10 precondition: when the first
token of every qualifying line parses as a base-16 numeral, the loop cannot
raise and yields a table. -/
theorem loadSymbolsFrom_total_of_hex :
    ∀ (lines : List PyStr) (acc : Dict),
      (∀ line ∈ lines, ∀ a t n : PyStr, ∀ r : List PyStr,
        pySplit line = a :: t :: n :: r → (pyIntHex a).isSome) →
      ∃ d : Dict, loadSymbolsFrom acc lines = .ok d := by
  intro lines
  induction lines with
  | nil => exact fun acc _ => ⟨acc, rfl⟩
  | cons l ls ih =>
    intro acc h
    have htail : ∀ line ∈ ls, ∀ a t n : PyStr, ∀ r : List PyStr,
        pySplit line = a :: t :: n :: r → (pyIntHex a).isSome :=
      fun x hx => h x (List.mem_cons_of_mem l hx)
    simp only [loadSymbolsFrom]
    rcases hs : pySplit l with _ | ⟨a, _ | ⟨t, _ | ⟨n, r⟩⟩⟩
    · rw [loadStep_short acc l (by rw [hs]; simp)]
      exact ih acc htail
    · rw [loadStep_short acc l (by rw [hs]; simp)]
      exact ih acc htail
    · rw [loadStep_short acc l (by rw [hs]; simp)]
      exact ih acc htail
    · have hsome := h l (List.mem_cons_self l ls) a t n r hs
      rcases hv : pyIntHex a with _ | v
      · rw [hv] at hsome
        exact absurd hsome (by simp)
      · rw [loadStep_long acc l a t n r hs, hv]
        exact ih (dictInsert acc (stripUnderscore n) v) htail
